import Mathlib

/-!
Verification of the BlueDisplay serial protocol engine
(`src/arduino/libraries/BlueDisplay/BlueSerial.cpp`): the outgoing
command encoder (`sendUSARTArgs`, `sendUSARTArgsAndByteBuffer`,
`sendUSARTBufferNoSizeCheck`) and the byte-at-a-time receive state
machine (`ISR(USART_RX_vect)`), shallowly embedded in Lean 4.

Bytes are modelled as `Nat` values below 256 and 16-bit words as `Nat`
values below 65536; C integer conversions are made explicit with
`% 256`, `% 65536` and signed reinterpretation functions.  The AVR
target is little-endian, so a `uint16_t` buffer cast to `uint8_t *`
serializes each word low byte first.
-/

/-- Sync byte, `#define SYNC_TOKEN 0xA5` (header comment in
`sendUSART5Args`: "Sync Byte A5"; the defining header `BlueSerial.h`
is not part of the sources, value taken from the protocol comment). -/
def SYNC_TOKEN : Nat := 0xA5

/-- `const int DATAFIELD_TAG_BYTE = 0x01;` from BlueSerial.cpp. -/
def DATAFIELD_TAG_BYTE : Nat := 0x01

/-- `#define MAX_NUMBER_OF_ARGS 12` from BlueSerial.cpp (the argument
count parameter is a C `int`, hence `Int` here). -/
def MAX_NUMBER_OF_ARGS : Int := 12

/-- `#define RECEIVE_TOUCH_OR_DISPLAY_DATA_SIZE 4` from BlueSerial.cpp. -/
def RECEIVE_TOUCH_OR_DISPLAY_DATA_SIZE : Nat := 4

/-- `#define RECEIVE_CALLBACK_DATA_SIZE TOUCH_CALLBACK_DATA_SIZE` from
BlueSerial.cpp; the comment "Buffer for 12 bytes" fixes the value 12
(`TOUCH_CALLBACK_DATA_SIZE` lives in a header that is not part of the
sources). -/
def RECEIVE_CALLBACK_DATA_SIZE : Nat := 12

/-- Modelled from the spec: `EVENT_TAG_NO_EVENT`, the "slot empty /
no tag received yet" sentinel from `EventHandler.h` (header not in the
sources).  The spec requires it to be distinct from every real wire
tag; the library value 0xFF is used. -/
def EVENT_TAG_NO_EVENT : Nat := 0xFF

/-- Modelled from the spec: `EVENT_TAG_FIRST_CALLBACK_ACTION_CODE`,
the threshold splitting touch/sensor tags from GUI-callback tags
(`EventHandler.h` is not in the sources); library value 0x20. -/
def EVENT_TAG_FIRST_CALLBACK_ACTION_CODE : Nat := 0x20

/-- Modelled from the spec: `EVENT_TAG_TOUCH_ACTION_DOWN`, the
touch-down tag routed to the dedicated down slot (`EventHandler.h` is
not in the sources); library value 0x00 (Android `ACTION_DOWN`). -/
def EVENT_TAG_TOUCH_ACTION_DOWN : Nat := 0x00

/-- C conversion of an `int` value to `uint16_t` (reduction mod 2^16). -/
def toUInt16 (x : Int) : Nat := (x % 65536).toNat

/-- C reinterpretation of a `uint16_t` value as `int16_t` (used when a
`uint16_t` length is passed to the `int16_t` data-length parameter of
`sendUSARTBufferNoSizeCheck`). -/
def toInt16 (x : Nat) : Int := if x < 32768 then (x : Int) else (x : Int) - 65536

/-- Little-endian byte serialization of one 16-bit word, as produced by
casting the AVR `uint16_t tParamBuffer[]` to `uint8_t *`. -/
def wordBytes (w : Nat) : List Nat := [w % 256, w / 256 % 256]

/-- Byte serialization of a whole `uint16_t` parameter buffer. -/
def wordsBytes : List Nat → List Nat
  | [] => []
  | w :: ws => wordBytes w ++ wordsBytes ws

/-- `sendUSARTBufferNoSizeCheck` (BlueSerial.cpp lines 135-162): sends
the first `aParameterBufferLength` bytes of the parameter buffer while
the counter stays positive, then the first `aDataBufferLength` bytes of
the data buffer; a non-positive counter sends nothing (`Int.toNat`
clamps at 0, matching the `> 0` loop guards).  The result is the byte
stream handed to the USART data register. -/
def sendUSARTBufferNoSizeCheck (aParameterBuffer : List Nat) (aParameterBufferLength : Int)
    (aDataBuffer : List Nat) (aDataBufferLength : Int) : List Nat :=
  aParameterBuffer.take aParameterBufferLength.toNat ++ aDataBuffer.take aDataBufferLength.toNat

/-- `sendUSARTArgs` (BlueSerial.cpp lines 190-207).  The guard drops
calls with more than `MAX_NUMBER_OF_ARGS` arguments.  Otherwise the
`uint16_t` parameter buffer receives `aFunctionTag << 8 | SYNC_TOKEN`
(the tag is a `uint8_t`, so the OR on the disjoint low byte is
addition), then `aNumberOfArgs * 2` converted to `uint16_t`, then the
first `aNumberOfArgs` variadic `int` arguments truncated to `uint16_t`
(the `uint8_t` loop counter runs `max aNumberOfArgs 0` times), and
`aNumberOfArgs * 2 + 4` bytes of it are transmitted. -/
def sendUSARTArgs (aFunctionTag : Nat) (aNumberOfArgs : Int) (args : List Int) : List Nat :=
  if aNumberOfArgs > MAX_NUMBER_OF_ARGS then []
  else
    sendUSARTBufferNoSizeCheck
      (wordsBytes ((aFunctionTag % 256 * 256 + SYNC_TOKEN)
        :: toUInt16 (aNumberOfArgs * 2)
        :: (args.take aNumberOfArgs.toNat).map toUInt16))
      (aNumberOfArgs * 2 + 4) [] 0

/-- `sendUSARTArgsAndByteBuffer` (BlueSerial.cpp lines 214-237).  Same
guard and parameter words as `sendUSARTArgs`, followed by the data
field header `DATAFIELD_TAG_BYTE << 8 | SYNC_TOKEN` and the `uint16_t`
data length; `aNumberOfArgs * 2 + 8` parameter bytes are transmitted,
then the data buffer with the length reinterpreted as `int16_t`
(the signature of `sendUSARTBufferNoSizeCheck` takes
`int16_t aDataBufferLength`). -/
def sendUSARTArgsAndByteBuffer (aFunctionTag : Nat) (aNumberOfArgs : Int) (args : List Int)
    (aLengthArg : Int) (aBuffer : List Nat) : List Nat :=
  if aNumberOfArgs > MAX_NUMBER_OF_ARGS then []
  else
    sendUSARTBufferNoSizeCheck
      (wordsBytes ((aFunctionTag % 256 * 256 + SYNC_TOKEN)
        :: toUInt16 (aNumberOfArgs * 2)
        :: ((args.take aNumberOfArgs.toNat).map toUInt16
            ++ [DATAFIELD_TAG_BYTE % 256 * 256 + SYNC_TOKEN, toUInt16 aLengthArg])))
      (aNumberOfArgs * 2 + 8) aBuffer (toInt16 (toUInt16 aLengthArg))

example : sendUSARTArgs 0x20 2 [3, 4] =
    [0xA5, 0x20, 4, 0, 3, 0, 4, 0] := by decide

example : sendUSARTArgs 0x20 13 [1,2,3,4,5,6,7,8,9,10,11,12,13] = [] := by decide

example : sendUSARTArgsAndByteBuffer 0x20 1 [7] 3 [9, 8, 7] =
    [0xA5, 0x20, 2, 0, 7, 0, 0xA5, 0x01, 3, 0, 9, 8, 7] := by decide

example : sendUSARTArgs 0x20 (-1) [] = [0xA5, 0x20] := by decide

example : sendUSARTArgs 0x20 (-2) [] = [] := by decide

/-- `struct BluetoothEvent` (from EventHandler.h, used by the ISR):
only the `EventType` byte and the raw `EventData.ByteArray` view of the
payload union are relevant to the receive path. -/
structure BluetoothEvent where
  EventType : Nat
  EventData : List Nat
  deriving Repr, DecidableEq

/-- The receiver state touched by `ISR(USART_RX_vect)`: the 12-byte
receive buffer, its index, the out-of-sync flag, the static
`sReceivedEventType`, and the two destination slots `remoteTouchEvent`
and `remoteTouchDownEvent` (the build compiles with basic touch
support, so the dedicated down slot exists). -/
structure ReceiverState where
  sReceiveBuffer : List Nat
  sReceiveBufferIndex : Nat
  sReceiveBufferOutOfSync : Bool
  sReceivedEventType : Nat
  remoteTouchEvent : BluetoothEvent
  remoteTouchDownEvent : BluetoothEvent
  deriving Repr, DecidableEq

/-- Expected payload size for the stored event type: the
`tDataSize` computation of the ISR (touch/display size below
`EVENT_TAG_FIRST_CALLBACK_ACTION_CODE`, callback size at or above). -/
def dataSizeFor (t : Nat) : Nat :=
  if t < EVENT_TAG_FIRST_CALLBACK_ACTION_CODE then RECEIVE_TOUCH_OR_DISPLAY_DATA_SIZE
  else RECEIVE_CALLBACK_DATA_SIZE

/-- `memcpy(dest, src, n)` on byte arrays: the first `n` bytes come
from `src`, the rest of `dest` is untouched. -/
def memcpyBytes (dest src : List Nat) (n : Nat) : List Nat :=
  src.take n ++ dest.drop n

/-- `ISR(USART_RX_vect)` (BlueSerial.cpp lines 272-333), one received
byte per invocation.  `allowTouchInterrupts` is false by default, so
the `handleEvent` call is never taken and the ISR only updates state.
Out of sync: wait for `SYNC_TOKEN`, then clear the flag, the event type
and the index.  In sync with no event type yet: the byte at index 1 is
captured as the event type (index back to 0), any other byte is stored
at the current index (index 0 holds the unused length byte).  In sync
with an event type: once the index reaches the expected size the byte
must be `SYNC_TOKEN` — on match the buffer is copied into the
destination slot (`remoteTouchDownEvent` for a touch-down event, else
`remoteTouchEvent`) and the state resets, on mismatch the receiver goes
out of sync; below the expected size the byte is stored at the index. -/
def usartRxIsr (s : ReceiverState) (tByte : Nat) : ReceiverState :=
  if s.sReceiveBufferOutOfSync then
    if tByte = SYNC_TOKEN then
      { s with sReceiveBufferOutOfSync := false,
               sReceivedEventType := EVENT_TAG_NO_EVENT,
               sReceiveBufferIndex := 0 }
    else s
  else
    if s.sReceivedEventType = EVENT_TAG_NO_EVENT then
      if s.sReceiveBufferIndex = 1 then
        { s with sReceivedEventType := tByte, sReceiveBufferIndex := 0 }
      else
        { s with sReceiveBuffer := s.sReceiveBuffer.set s.sReceiveBufferIndex tByte,
                 sReceiveBufferIndex := s.sReceiveBufferIndex + 1 }
    else
      if s.sReceiveBufferIndex = dataSizeFor s.sReceivedEventType then
        if tByte = SYNC_TOKEN then
          if s.sReceivedEventType = EVENT_TAG_TOUCH_ACTION_DOWN then
            { s with remoteTouchDownEvent :=
                       { EventType := s.sReceivedEventType,
                         EventData := memcpyBytes s.remoteTouchDownEvent.EventData
                           s.sReceiveBuffer (dataSizeFor s.sReceivedEventType) },
                     sReceiveBufferIndex := 0,
                     sReceivedEventType := EVENT_TAG_NO_EVENT }
          else
            { s with remoteTouchEvent :=
                       { EventType := s.sReceivedEventType,
                         EventData := memcpyBytes s.remoteTouchEvent.EventData
                           s.sReceiveBuffer (dataSizeFor s.sReceivedEventType) },
                     sReceiveBufferIndex := 0,
                     sReceivedEventType := EVENT_TAG_NO_EVENT }
        else
          { s with sReceiveBufferOutOfSync := true, sReceiveBufferIndex := 0 }
      else
        { s with sReceiveBuffer := s.sReceiveBuffer.set s.sReceiveBufferIndex tByte,
                 sReceiveBufferIndex := s.sReceiveBufferIndex + 1 }

/-- Feed a byte sequence one byte at a time into the receive ISR. -/
def feedBytes (s : ReceiverState) (bs : List Nat) : ReceiverState :=
  bs.foldl usartRxIsr s

/-- A receiver in its reset configuration: in sync, no event type,
index 0, with the 12-byte receive buffer (slot contents arbitrary). -/
def ReceiverReset (s : ReceiverState) : Prop :=
  s.sReceiveBufferOutOfSync = false ∧
  s.sReceivedEventType = EVENT_TAG_NO_EVENT ∧
  s.sReceiveBufferIndex = 0 ∧
  s.sReceiveBuffer.length = RECEIVE_CALLBACK_DATA_SIZE

instance (s : ReceiverState) : Decidable (ReceiverReset s) := by
  unfold ReceiverReset; infer_instance

/-- A concrete freshly initialised receiver (as after
`initSimpleSerial`: both slots cleared to `EVENT_TAG_NO_EVENT`). -/
def initialReceiver : ReceiverState :=
  { sReceiveBuffer := List.replicate RECEIVE_CALLBACK_DATA_SIZE 0,
    sReceiveBufferIndex := 0,
    sReceiveBufferOutOfSync := false,
    sReceivedEventType := EVENT_TAG_NO_EVENT,
    remoteTouchEvent := ⟨EVENT_TAG_NO_EVENT, List.replicate RECEIVE_CALLBACK_DATA_SIZE 0⟩,
    remoteTouchDownEvent := ⟨EVENT_TAG_NO_EVENT, List.replicate RECEIVE_CALLBACK_DATA_SIZE 0⟩ }

example : (feedBytes initialReceiver [6, 0x02, 10, 0, 20, 0, 0xA5]).remoteTouchEvent =
    ⟨0x02, [10, 0, 20, 0, 0, 0, 0, 0, 0, 0, 0, 0]⟩ := by decide

example : (feedBytes initialReceiver [6, 0x00, 10, 0, 20, 0, 0xA5]).remoteTouchDownEvent =
    ⟨0x00, [10, 0, 20, 0, 0, 0, 0, 0, 0, 0, 0, 0]⟩ := by decide

example : (feedBytes initialReceiver [6, 0x02, 10, 0, 20, 0, 0x13]).sReceiveBufferOutOfSync =
    true := by decide

example : (feedBytes initialReceiver
    [6, 0x20, 1, 2, 3, 4, 5, 6, 7, 8, 9, 10, 11, 12, 0xA5]).remoteTouchEvent =
    ⟨0x20, [1, 2, 3, 4, 5, 6, 7, 8, 9, 10, 11, 12]⟩ := by decide

/-- Successive stores `buf[i++] = b` for a list of bytes, the effect of
the collection branch of the ISR on the receive buffer. -/
def writeFrom (buf : List Nat) (i : Nat) : List Nat → List Nat
  | [] => buf
  | b :: rest => writeFrom (buf.set i b) (i + 1) rest

theorem writeFrom_cons (Q : List Nat) : ∀ (x : Nat) (l : List Nat) (i : Nat),
    writeFrom (x :: l) (i + 1) Q = x :: writeFrom l i Q := by
  induction Q with
  | nil => intro x l i; rfl
  | cons q rest ih =>
    intro x l i
    show writeFrom ((x :: l).set (i + 1) q) (i + 1 + 1) rest = x :: writeFrom (l.set i q) (i + 1) rest
    rw [List.set_cons_succ, ih]

theorem writeFrom_zero (P : List Nat) : ∀ (buf : List Nat),
    P.length ≤ buf.length →
    writeFrom buf 0 P = P ++ buf.drop P.length := by
  induction P with
  | nil => intro buf _; simp [writeFrom]
  | cons p rest ih =>
    intro buf h
    cases buf with
    | nil => simp at h
    | cons b bs =>
      show writeFrom ((b :: bs).set 0 p) 1 rest = (p :: rest) ++ (b :: bs).drop (rest.length + 1)
      rw [List.set_cons_zero, writeFrom_cons, ih bs (by simpa using h)]
      simp [List.drop_succ_cons]

theorem feedBytes_nil (s : ReceiverState) : feedBytes s [] = s := rfl

theorem feedBytes_cons (s : ReceiverState) (b : Nat) (bs : List Nat) :
    feedBytes s (b :: bs) = feedBytes (usartRxIsr s b) bs := rfl

theorem feedBytes_append (s : ReceiverState) (l1 l2 : List Nat) :
    feedBytes s (l1 ++ l2) = feedBytes (feedBytes s l1) l2 := by
  simp [feedBytes]

theorem dataSizeFor_le (t : Nat) : dataSizeFor t ≤ RECEIVE_CALLBACK_DATA_SIZE := by
  rw [dataSizeFor]; split <;> decide

/-- While a known event type's payload is being collected and the
expected size is not yet reached, the ISR stores each byte at the
current index and increments it. -/
theorem feed_collect (P : List Nat) : ∀ (s : ReceiverState),
    s.sReceiveBufferOutOfSync = false →
    s.sReceivedEventType ≠ EVENT_TAG_NO_EVENT →
    s.sReceiveBufferIndex + P.length ≤ dataSizeFor s.sReceivedEventType →
    feedBytes s P = { s with
      sReceiveBuffer := writeFrom s.sReceiveBuffer s.sReceiveBufferIndex P,
      sReceiveBufferIndex := s.sReceiveBufferIndex + P.length } := by
  induction P with
  | nil => intro s _ _ _; rfl
  | cons p rest ih =>
    intro s h1 h2 h3
    obtain ⟨buf, idx, oos, ty, ev, dev⟩ := s
    simp only at h1 h2 h3 ⊢
    subst h1
    simp only [List.length_cons] at h3
    have hlt : idx < dataSizeFor ty := by omega
    rw [feedBytes_cons]
    have hstep : usartRxIsr ⟨buf, idx, false, ty, ev, dev⟩ p =
        ⟨buf.set idx p, idx + 1, false, ty, ev, dev⟩ := by
      simp [usartRxIsr, h2, Nat.ne_of_lt hlt]
    have h3' : idx + 1 + rest.length ≤ dataSizeFor ty := by omega
    rw [hstep, ih ⟨buf.set idx p, idx + 1, false, ty, ev, dev⟩ rfl h2 h3']
    simp only [writeFrom, ReceiverState.mk.injEq, List.length_cons, and_true, true_and]
    omega

/-- Processing one complete well-formed incoming frame
`[length byte][tag][payload][SYNC_TOKEN]` from a reset receiver: the
tagged slot is filled (the dedicated down slot for a touch-down tag,
the general slot otherwise), the payload lands at the front of the
slot's byte array, and the receiver returns to its reset shape. -/
theorem feed_frame (s : ReceiverState) (L T : Nat) (P : List Nat)
    (hsync : s.sReceiveBufferOutOfSync = false)
    (htype : s.sReceivedEventType = EVENT_TAG_NO_EVENT)
    (hidx : s.sReceiveBufferIndex = 0)
    (hlen : s.sReceiveBuffer.length = RECEIVE_CALLBACK_DATA_SIZE)
    (hT : T ≠ EVENT_TAG_NO_EVENT)
    (hP : P.length = dataSizeFor T) :
    feedBytes s (L :: T :: (P ++ [SYNC_TOKEN])) =
      if T = EVENT_TAG_TOUCH_ACTION_DOWN then
        { s with sReceiveBuffer := writeFrom (s.sReceiveBuffer.set 0 L) 0 P,
                 sReceiveBufferIndex := 0,
                 sReceivedEventType := EVENT_TAG_NO_EVENT,
                 remoteTouchDownEvent :=
                   ⟨T, P ++ s.remoteTouchDownEvent.EventData.drop (dataSizeFor T)⟩ }
      else
        { s with sReceiveBuffer := writeFrom (s.sReceiveBuffer.set 0 L) 0 P,
                 sReceiveBufferIndex := 0,
                 sReceivedEventType := EVENT_TAG_NO_EVENT,
                 remoteTouchEvent :=
                   ⟨T, P ++ s.remoteTouchEvent.EventData.drop (dataSizeFor T)⟩ } := by
  obtain ⟨buf, idx, oos, ty, ev, dev⟩ := s
  simp only at hsync htype hidx hlen ⊢
  subst hsync htype hidx
  have hbufset : (buf.set 0 L).length = RECEIVE_CALLBACK_DATA_SIZE := by
    rw [List.length_set, hlen]
  have hwf : writeFrom (buf.set 0 L) 0 P = P ++ (buf.set 0 L).drop P.length :=
    writeFrom_zero P (buf.set 0 L) (by rw [hbufset, hP]; exact dataSizeFor_le T)
  rw [feedBytes_cons, feedBytes_cons]
  have h1 : usartRxIsr ⟨buf, 0, false, EVENT_TAG_NO_EVENT, ev, dev⟩ L =
      ⟨buf.set 0 L, 1, false, EVENT_TAG_NO_EVENT, ev, dev⟩ := by
    simp [usartRxIsr]
  have h2 : usartRxIsr ⟨buf.set 0 L, 1, false, EVENT_TAG_NO_EVENT, ev, dev⟩ T =
      ⟨buf.set 0 L, 0, false, T, ev, dev⟩ := by
    simp [usartRxIsr]
  rw [h1, h2, feedBytes_append]
  rw [feed_collect P ⟨buf.set 0 L, 0, false, T, ev, dev⟩ rfl hT (by simpa using hP.le)]
  simp only [Nat.zero_add]
  have h3 : usartRxIsr ⟨writeFrom (buf.set 0 L) 0 P, P.length, false, T, ev, dev⟩ SYNC_TOKEN =
      if T = EVENT_TAG_TOUCH_ACTION_DOWN then
        ⟨writeFrom (buf.set 0 L) 0 P, 0, false, EVENT_TAG_NO_EVENT, ev,
          ⟨T, memcpyBytes dev.EventData (writeFrom (buf.set 0 L) 0 P) (dataSizeFor T)⟩⟩
      else
        ⟨writeFrom (buf.set 0 L) 0 P, 0, false, EVENT_TAG_NO_EVENT,
          ⟨T, memcpyBytes ev.EventData (writeFrom (buf.set 0 L) 0 P) (dataSizeFor T)⟩, dev⟩ := by
    simp only [usartRxIsr, hT, hP]
    split <;> simp_all
  rw [feedBytes_cons, h3, feedBytes_nil]
  have hmemcpy : ∀ d : List Nat,
      memcpyBytes d (writeFrom (buf.set 0 L) 0 P) (dataSizeFor T) =
        P ++ d.drop (dataSizeFor T) := by
    intro d
    rw [memcpyBytes, hwf, ← hP, List.take_left]
  split <;> simp [hmemcpy]

theorem wordsBytes_length (ws : List Nat) : (wordsBytes ws).length = 2 * ws.length := by
  induction ws with
  | nil => rfl
  | cons w rest ih => simp [wordsBytes, wordBytes, ih]; omega

theorem toUInt16_small (a : Int) (h0 : 0 ≤ a) (h : a < 65536) : toUInt16 a = a.toNat := by
  rw [toUInt16, Int.emod_eq_of_lt h0 h]

/-- C2.  Argument cap: any call of `sendUSARTArgs` or
`sendUSARTArgsAndByteBuffer` with more than 12 arguments is dropped by
the guard and transmits no bytes at all. -/
theorem sendUSARTArgs_arg_cap (aFunctionTag : Nat) (aNumberOfArgs : Int) (args : List Int)
    (aLengthArg : Int) (aBuffer : List Nat) (hn : 12 < aNumberOfArgs) :
    sendUSARTArgs aFunctionTag aNumberOfArgs args = [] ∧
    sendUSARTArgsAndByteBuffer aFunctionTag aNumberOfArgs args aLengthArg aBuffer = [] := by
  have hn' : aNumberOfArgs > MAX_NUMBER_OF_ARGS := hn
  constructor
  · rw [sendUSARTArgs, if_pos hn']
  · rw [sendUSARTArgsAndByteBuffer, if_pos hn']

theorem sendUSARTArgs_arg_cap_witness :
    sendUSARTArgs 0x70 13 [1, 2, 3] = [] ∧
    sendUSARTArgsAndByteBuffer 0x70 13 [1, 2, 3] 5 [9, 9, 9, 9, 9] = [] :=
  sendUSARTArgs_arg_cap 0x70 13 [1, 2, 3] 5 [9, 9, 9, 9, 9] (by decide)

/-- C7.  Command frame layout: with `0 ≤ N ≤ 12` arguments, each a
16-bit value, `sendUSARTArgs` transmits exactly the header word
`tag << 8 | SYNC_TOKEN`, the length word `2 * N`, and the `N` argument
words verbatim — `2 * N + 4` bytes in platform (little-endian) byte
order with no trailing sync token. -/
theorem sendUSARTArgs_frame_layout (aFunctionTag : Nat) (aNumberOfArgs : Int) (args : List Int)
    (htag : aFunctionTag < 256) (hn0 : 0 ≤ aNumberOfArgs) (hn : aNumberOfArgs ≤ 12)
    (hargs : args.length = aNumberOfArgs.toNat)
    (helts : ∀ a ∈ args, 0 ≤ a ∧ a < 65536) :
    sendUSARTArgs aFunctionTag aNumberOfArgs args =
      wordsBytes ((aFunctionTag * 256 + SYNC_TOKEN)
        :: (2 * aNumberOfArgs).toNat :: args.map Int.toNat) ∧
    (sendUSARTArgs aFunctionTag aNumberOfArgs args).length = 2 * aNumberOfArgs.toNat + 4 := by
  have hguard : ¬ aNumberOfArgs > MAX_NUMBER_OF_ARGS := by rw [MAX_NUMBER_OF_ARGS]; omega
  have htake : args.take aNumberOfArgs.toNat = args := by
    rw [← hargs, List.take_length]
  have hmap : args.map toUInt16 = args.map Int.toNat :=
    List.map_congr_left fun a ha => toUInt16_small a (helts a ha).1 (helts a ha).2
  have hword : toUInt16 (aNumberOfArgs * 2) = (2 * aNumberOfArgs).toNat := by
    rw [toUInt16_small _ (by omega) (by omega)]
    congr 1
    omega
  have hbody : sendUSARTArgs aFunctionTag aNumberOfArgs args =
      wordsBytes ((aFunctionTag * 256 + SYNC_TOKEN)
        :: (2 * aNumberOfArgs).toNat :: args.map Int.toNat) := by
    rw [sendUSARTArgs, if_neg hguard, sendUSARTBufferNoSizeCheck, htake, hmap, hword,
      Nat.mod_eq_of_lt htag]
    have hlen : (wordsBytes ((aFunctionTag * 256 + SYNC_TOKEN)
        :: (2 * aNumberOfArgs).toNat :: args.map Int.toNat)).length =
          (aNumberOfArgs * 2 + 4).toNat := by
      rw [wordsBytes_length]
      simp [hargs]
      omega
    rw [← hlen, List.take_length]
    simp
  refine ⟨hbody, ?_⟩
  rw [hbody, wordsBytes_length]
  simp [hargs]
  omega

theorem sendUSARTArgs_frame_layout_witness :
    sendUSARTArgs 0x25 3 [100, 515, 65535] =
      wordsBytes ((0x25 * 256 + SYNC_TOKEN) :: (2 * (3 : Int)).toNat
        :: ([100, 515, 65535] : List Int).map Int.toNat) ∧
    (sendUSARTArgs 0x25 3 [100, 515, 65535]).length = 2 * (3 : Int).toNat + 4 :=
  sendUSARTArgs_frame_layout 0x25 3 [100, 515, 65535] (by decide) (by decide) (by decide)
    (by decide) (by decide)

/-- C8 counterexample.  With a data length of 32768 the data-block
length word still says 32768, but no data bytes follow: the length is
handed to the `int16_t` parameter of `sendUSARTBufferNoSizeCheck`,
where it reads as -32768 and the send loop never runs, so only the
8 parameter bytes are transmitted instead of 8 + 32768 bytes. -/
theorem sendUSARTArgsAndByteBuffer_length_32768_counterexample :
    (sendUSARTArgsAndByteBuffer 0x20 0 [] 32768 (List.replicate 32768 7)).length ≠
      2 * 0 + 8 + 32768 := by
  have hneg : toInt16 (toUInt16 32768) = -32768 := by decide
  rw [sendUSARTArgsAndByteBuffer, if_neg (by decide), sendUSARTBufferNoSizeCheck, hneg]
  simp [wordsBytes, wordBytes, toUInt16]

/-- C8 (amended).  Data-block layout for data lengths representable in
`int16_t`: with `0 ≤ N ≤ 12` 16-bit arguments and `0 ≤ length ≤ 32767`,
`sendUSARTArgsAndByteBuffer` transmits the same header word, `2 * N`
length word and argument words as `sendUSARTArgs`, then the data-block
header word `DATAFIELD_TAG_BYTE << 8 | SYNC_TOKEN` and the 16-bit data
byte-length word, then the raw data bytes — `2 * N + 8` parameter bytes
plus `length` data bytes. -/
theorem sendUSARTArgsAndByteBuffer_data_block_layout (aFunctionTag : Nat) (aNumberOfArgs : Int)
    (args : List Int) (aLengthArg : Int) (aBuffer : List Nat)
    (htag : aFunctionTag < 256) (hn0 : 0 ≤ aNumberOfArgs) (hn : aNumberOfArgs ≤ 12)
    (hargs : args.length = aNumberOfArgs.toNat)
    (helts : ∀ a ∈ args, 0 ≤ a ∧ a < 65536)
    (hd0 : 0 ≤ aLengthArg) (hdlt : aLengthArg < 32768)
    (hdbuf : aBuffer.length = aLengthArg.toNat) :
    sendUSARTArgsAndByteBuffer aFunctionTag aNumberOfArgs args aLengthArg aBuffer =
      wordsBytes ((aFunctionTag * 256 + SYNC_TOKEN)
        :: (2 * aNumberOfArgs).toNat
        :: (args.map Int.toNat
            ++ [DATAFIELD_TAG_BYTE * 256 + SYNC_TOKEN, aLengthArg.toNat])) ++ aBuffer ∧
    (sendUSARTArgsAndByteBuffer aFunctionTag aNumberOfArgs args aLengthArg aBuffer).length =
      2 * aNumberOfArgs.toNat + 8 + aLengthArg.toNat := by
  have hguard : ¬ aNumberOfArgs > MAX_NUMBER_OF_ARGS := by
    rw [MAX_NUMBER_OF_ARGS]; omega
  have htake : args.take aNumberOfArgs.toNat = args := by
    rw [← hargs, List.take_length]
  have hmap : args.map toUInt16 = args.map Int.toNat :=
    List.map_congr_left fun a ha => toUInt16_small a (helts a ha).1 (helts a ha).2
  have hword : toUInt16 (aNumberOfArgs * 2) = (2 * aNumberOfArgs).toNat := by
    rw [toUInt16_small _ (by omega) (by omega)]
    congr 1
    omega
  have hdword : toUInt16 aLengthArg = aLengthArg.toNat :=
    toUInt16_small aLengthArg hd0 (by omega)
  have hd16 : toInt16 aLengthArg.toNat = aLengthArg := by
    rw [toInt16, if_pos (by omega)]
    omega
  have hbody : sendUSARTArgsAndByteBuffer aFunctionTag aNumberOfArgs args aLengthArg aBuffer =
      wordsBytes ((aFunctionTag * 256 + SYNC_TOKEN)
        :: (2 * aNumberOfArgs).toNat
        :: (args.map Int.toNat
            ++ [DATAFIELD_TAG_BYTE * 256 + SYNC_TOKEN, aLengthArg.toNat])) ++ aBuffer := by
    rw [sendUSARTArgsAndByteBuffer, if_neg hguard, sendUSARTBufferNoSizeCheck, htake, hmap,
      hword, hdword, hd16, Nat.mod_eq_of_lt htag]
    have hlen : (wordsBytes ((aFunctionTag * 256 + SYNC_TOKEN)
        :: (2 * aNumberOfArgs).toNat
        :: (args.map Int.toNat
            ++ [DATAFIELD_TAG_BYTE % 256 * 256 + SYNC_TOKEN, aLengthArg.toNat]))).length =
          (aNumberOfArgs * 2 + 8).toNat := by
      rw [wordsBytes_length]
      simp [hargs]
      omega
    rw [← hlen, List.take_length, ← hdbuf, List.take_length]
    rfl
  refine ⟨hbody, ?_⟩
  rw [hbody]
  simp [wordsBytes_length, hargs, hdbuf]
  omega

theorem sendUSARTArgsAndByteBuffer_data_block_layout_witness :
    sendUSARTArgsAndByteBuffer 0x25 2 [7, 300] 3 [1, 2, 3] =
      wordsBytes ((0x25 * 256 + SYNC_TOKEN) :: (2 * (2 : Int)).toNat
        :: (([7, 300] : List Int).map Int.toNat
            ++ [DATAFIELD_TAG_BYTE * 256 + SYNC_TOKEN, (3 : Int).toNat])) ++ [1, 2, 3] ∧
    (sendUSARTArgsAndByteBuffer 0x25 2 [7, 300] 3 [1, 2, 3]).length =
      2 * (2 : Int).toNat + 8 + (3 : Int).toNat :=
  sendUSARTArgsAndByteBuffer_data_block_layout 0x25 2 [7, 300] 3 [1, 2, 3] (by decide)
    (by decide) (by decide) (by decide) (by decide) (by decide) (by decide) (by decide)

/-- C10.  The cap guard only rejects counts strictly above 12: a call
with `aNumberOfArgs = -1` is not dropped and transmits exactly the two
bytes of the header word (send length `2 * (-1) + 4 = 2`), while any
count at or below -2 gives a non-positive send length and transmits
nothing. -/
theorem sendUSARTArgs_negative_count (aFunctionTag : Nat) (args args2 : List Int) (m : Int)
    (htag : aFunctionTag < 256) (hm : m ≤ -2) :
    sendUSARTArgs aFunctionTag (-1) args = wordBytes (aFunctionTag * 256 + SYNC_TOKEN) ∧
    (sendUSARTArgs aFunctionTag (-1) args).length = 2 ∧
    sendUSARTArgs aFunctionTag m args2 = [] := by
  have hone : sendUSARTArgs aFunctionTag (-1) args =
      wordBytes (aFunctionTag * 256 + SYNC_TOKEN) := by
    rw [sendUSARTArgs, if_neg (by rw [MAX_NUMBER_OF_ARGS]; omega), sendUSARTBufferNoSizeCheck,
      Nat.mod_eq_of_lt htag]
    simp [wordsBytes, wordBytes]
  refine ⟨hone, by rw [hone]; rfl, ?_⟩
  rw [sendUSARTArgs, if_neg (by rw [MAX_NUMBER_OF_ARGS]; omega), sendUSARTBufferNoSizeCheck]
  have h0 : (m * 2 + 4).toNat = 0 := by omega
  simp [h0]

theorem sendUSARTArgs_negative_count_witness :
    sendUSARTArgs 0x25 (-1) [7] = wordBytes (0x25 * 256 + SYNC_TOKEN) ∧
    (sendUSARTArgs 0x25 (-1) [7]).length = 2 ∧
    sendUSARTArgs 0x25 (-2) [7] = [] :=
  sendUSARTArgs_negative_count 0x25 [7] [7] (-2) (by decide) (by decide)

/-- A concrete receiver that has lost synchronization mid-frame. -/
def outOfSyncReceiver : ReceiverState :=
  { initialReceiver with sReceiveBufferOutOfSync := true,
                         sReceivedEventType := 0x05,
                         sReceiveBufferIndex := 3 }

/-- C1.  Framing round-trip: from a reset receiver, feeding
`[length byte][tag][payload][SYNC_TOKEN]` for any tag other than
`EVENT_TAG_NO_EVENT` and a payload of exactly the tag-implied size
leaves the destination slot (the dedicated down slot for
`EVENT_TAG_TOUCH_ACTION_DOWN`, else the general slot) holding the tag
as `EventType` and the payload as its leading bytes. -/
theorem framing_round_trip (s : ReceiverState) (L T : Nat) (P : List Nat)
    (hreset : ReceiverReset s)
    (hTbyte : T < 256)
    (hT : T ≠ EVENT_TAG_NO_EVENT)
    (hP : P.length = dataSizeFor T) :
    (if T = EVENT_TAG_TOUCH_ACTION_DOWN then
        (feedBytes s (L :: T :: (P ++ [SYNC_TOKEN]))).remoteTouchDownEvent
      else
        (feedBytes s (L :: T :: (P ++ [SYNC_TOKEN]))).remoteTouchEvent).EventType = T ∧
    (if T = EVENT_TAG_TOUCH_ACTION_DOWN then
        (feedBytes s (L :: T :: (P ++ [SYNC_TOKEN]))).remoteTouchDownEvent
      else
        (feedBytes s (L :: T :: (P ++ [SYNC_TOKEN]))).remoteTouchEvent).EventData.take P.length
      = P := by
  obtain ⟨hsync, htype, hidx, hlen⟩ := hreset
  rw [feed_frame s L T P hsync htype hidx hlen hT hP]
  by_cases hd : T = EVENT_TAG_TOUCH_ACTION_DOWN
  · simp only [if_pos hd]
    exact ⟨trivial, List.take_left P _⟩
  · simp only [if_neg hd]
    exact ⟨trivial, List.take_left P _⟩

theorem framing_round_trip_witness :
    (if (0x02 : Nat) = EVENT_TAG_TOUCH_ACTION_DOWN then
        (feedBytes initialReceiver (9 :: 0x02 :: ([1, 2, 3, 4] ++ [SYNC_TOKEN]))).remoteTouchDownEvent
      else
        (feedBytes initialReceiver (9 :: 0x02 :: ([1, 2, 3, 4] ++ [SYNC_TOKEN]))).remoteTouchEvent).EventType
      = 0x02 ∧
    (if (0x02 : Nat) = EVENT_TAG_TOUCH_ACTION_DOWN then
        (feedBytes initialReceiver (9 :: 0x02 :: ([1, 2, 3, 4] ++ [SYNC_TOKEN]))).remoteTouchDownEvent
      else
        (feedBytes initialReceiver (9 :: 0x02 :: ([1, 2, 3, 4] ++ [SYNC_TOKEN]))).remoteTouchEvent).EventData.take
        ([1, 2, 3, 4] : List Nat).length
      = [1, 2, 3, 4] :=
  framing_round_trip initialReceiver 9 0x02 [1, 2, 3, 4] (by decide) (by decide) (by decide)
    (by decide)

/-- C3.  Trailing-sync mismatch: with a full payload collected (index
at the expected size), a byte other than `SYNC_TOKEN` flips the
receiver out of sync and resets the index, and nothing else changes —
in particular both event slots keep their `EventType` and payload. -/
theorem trailing_sync_mismatch (s : ReceiverState) (b : Nat)
    (hsync : s.sReceiveBufferOutOfSync = false)
    (hT : s.sReceivedEventType ≠ EVENT_TAG_NO_EVENT)
    (hidx : s.sReceiveBufferIndex = dataSizeFor s.sReceivedEventType)
    (hb : b ≠ SYNC_TOKEN) :
    usartRxIsr s b =
      { s with sReceiveBufferOutOfSync := true, sReceiveBufferIndex := 0 } ∧
    (usartRxIsr s b).remoteTouchEvent = s.remoteTouchEvent ∧
    (usartRxIsr s b).remoteTouchDownEvent = s.remoteTouchDownEvent := by
  have h : usartRxIsr s b =
      { s with sReceiveBufferOutOfSync := true, sReceiveBufferIndex := 0 } := by
    rw [usartRxIsr]
    rw [if_neg (by rw [hsync]; simp), if_neg hT, if_pos hidx, if_neg hb]
  exact ⟨h, by rw [h], by rw [h]⟩

theorem trailing_sync_mismatch_witness :
    usartRxIsr (feedBytes initialReceiver [6, 0x02, 10, 0, 20, 0]) 0x13 =
      { feedBytes initialReceiver [6, 0x02, 10, 0, 20, 0] with
          sReceiveBufferOutOfSync := true, sReceiveBufferIndex := 0 } ∧
    (usartRxIsr (feedBytes initialReceiver [6, 0x02, 10, 0, 20, 0]) 0x13).remoteTouchEvent =
      (feedBytes initialReceiver [6, 0x02, 10, 0, 20, 0]).remoteTouchEvent ∧
    (usartRxIsr (feedBytes initialReceiver [6, 0x02, 10, 0, 20, 0]) 0x13).remoteTouchDownEvent =
      (feedBytes initialReceiver [6, 0x02, 10, 0, 20, 0]).remoteTouchDownEvent :=
  trailing_sync_mismatch (feedBytes initialReceiver [6, 0x02, 10, 0, 20, 0]) 0x13
    (by decide) (by decide) (by decide) (by decide)

/-- C5.  Down-event protection: with an unconsumed touch-down event in
the dedicated slot, a complete well-formed frame whose tag is not
`EVENT_TAG_TOUCH_ACTION_DOWN` leaves the down slot untouched and writes
only the general slot. -/
theorem down_event_protection (s : ReceiverState) (L T : Nat) (P : List Nat)
    (hreset : ReceiverReset s)
    (hdown : s.remoteTouchDownEvent.EventType = EVENT_TAG_TOUCH_ACTION_DOWN)
    (hT : T ≠ EVENT_TAG_NO_EVENT)
    (hTd : T ≠ EVENT_TAG_TOUCH_ACTION_DOWN)
    (hP : P.length = dataSizeFor T) :
    (feedBytes s (L :: T :: (P ++ [SYNC_TOKEN]))).remoteTouchDownEvent =
      s.remoteTouchDownEvent ∧
    (feedBytes s (L :: T :: (P ++ [SYNC_TOKEN]))).remoteTouchEvent =
      ⟨T, P ++ s.remoteTouchEvent.EventData.drop (dataSizeFor T)⟩ := by
  obtain ⟨hsync, htype, hidx, hlen⟩ := hreset
  rw [feed_frame s L T P hsync htype hidx hlen hT hP, if_neg hTd]
  exact ⟨rfl, rfl⟩

theorem down_event_protection_witness :
    (feedBytes
        { initialReceiver with remoteTouchDownEvent := ⟨0x00, [10, 0, 20, 0]⟩ }
        (6 :: 0x02 :: ([30, 0, 40, 0] ++ [SYNC_TOKEN]))).remoteTouchDownEvent =
      ({ initialReceiver with remoteTouchDownEvent := ⟨0x00, [10, 0, 20, 0]⟩ }
        : ReceiverState).remoteTouchDownEvent ∧
    (feedBytes
        { initialReceiver with remoteTouchDownEvent := ⟨0x00, [10, 0, 20, 0]⟩ }
        (6 :: 0x02 :: ([30, 0, 40, 0] ++ [SYNC_TOKEN]))).remoteTouchEvent =
      ⟨0x02, [30, 0, 40, 0] ++
        ({ initialReceiver with remoteTouchDownEvent := ⟨0x00, [10, 0, 20, 0]⟩ }
          : ReceiverState).remoteTouchEvent.EventData.drop (dataSizeFor 0x02)⟩ :=
  down_event_protection
    { initialReceiver with remoteTouchDownEvent := ⟨0x00, [10, 0, 20, 0]⟩ }
    6 0x02 [30, 0, 40, 0] (by decide) (by decide) (by decide) (by decide) (by decide)

/-- C6.  Header decoding: from a reset receiver the first two bytes are
consumed before payload collection — the length byte is stored at
buffer position 0 and has no other effect on the state, the second byte
becomes the event-type tag, and the index is back at 0; the expected
payload size is 4 for tags below `EVENT_TAG_FIRST_CALLBACK_ACTION_CODE`
and 12 (the callback data size) otherwise. -/
theorem header_decode_and_size_selection (s : ReceiverState) (L T : Nat)
    (hreset : ReceiverReset s) :
    feedBytes s [L, T] =
      { s with sReceiveBuffer := s.sReceiveBuffer.set 0 L,
               sReceivedEventType := T,
               sReceiveBufferIndex := 0 } ∧
    dataSizeFor T = if T < EVENT_TAG_FIRST_CALLBACK_ACTION_CODE then 4 else 12 := by
  obtain ⟨hsync, htype, hidx, hlen⟩ := hreset
  constructor
  · obtain ⟨buf, idx, oos, ty, ev, dev⟩ := s
    simp only at hsync htype hidx ⊢
    subst hsync htype hidx
    rw [feedBytes_cons, feedBytes_cons]
    have h1 : usartRxIsr ⟨buf, 0, false, EVENT_TAG_NO_EVENT, ev, dev⟩ L =
        ⟨buf.set 0 L, 1, false, EVENT_TAG_NO_EVENT, ev, dev⟩ := by
      simp [usartRxIsr]
    have h2 : usartRxIsr ⟨buf.set 0 L, 1, false, EVENT_TAG_NO_EVENT, ev, dev⟩ T =
        ⟨buf.set 0 L, 0, false, T, ev, dev⟩ := by
      simp [usartRxIsr]
    rw [h1, h2, feedBytes_nil]
  · rw [dataSizeFor]
    split <;> rfl

theorem header_decode_and_size_selection_witness :
    feedBytes initialReceiver [37, 0x21] =
      { initialReceiver with
          sReceiveBuffer := initialReceiver.sReceiveBuffer.set 0 37,
          sReceivedEventType := 0x21,
          sReceiveBufferIndex := 0 } ∧
    dataSizeFor 0x21 = if (0x21 : Nat) < EVENT_TAG_FIRST_CALLBACK_ACTION_CODE then 4 else 12 :=
  header_decode_and_size_selection initialReceiver 37 0x21 (by decide)

/-- C4.  Resync convergence: while out of sync every byte other than
`SYNC_TOKEN` leaves the receiver state entirely unchanged; the first
`SYNC_TOKEN` clears the out-of-sync flag, the stored event type and the
index in that single step; and from that state the next well-formed
frame is framed correctly into its destination slot. -/
theorem resync_convergence (s : ReceiverState) (b L T : Nat) (P : List Nat)
    (hoos : s.sReceiveBufferOutOfSync = true)
    (hlen : s.sReceiveBuffer.length = RECEIVE_CALLBACK_DATA_SIZE)
    (hT : T ≠ EVENT_TAG_NO_EVENT)
    (hP : P.length = dataSizeFor T) :
    (b ≠ SYNC_TOKEN → usartRxIsr s b = s) ∧
    usartRxIsr s SYNC_TOKEN =
      { s with sReceiveBufferOutOfSync := false,
               sReceivedEventType := EVENT_TAG_NO_EVENT,
               sReceiveBufferIndex := 0 } ∧
    ((if T = EVENT_TAG_TOUCH_ACTION_DOWN then
        (feedBytes (usartRxIsr s SYNC_TOKEN) (L :: T :: (P ++ [SYNC_TOKEN]))).remoteTouchDownEvent
      else
        (feedBytes (usartRxIsr s SYNC_TOKEN) (L :: T :: (P ++ [SYNC_TOKEN]))).remoteTouchEvent).EventType
        = T ∧
     (if T = EVENT_TAG_TOUCH_ACTION_DOWN then
        (feedBytes (usartRxIsr s SYNC_TOKEN) (L :: T :: (P ++ [SYNC_TOKEN]))).remoteTouchDownEvent
      else
        (feedBytes (usartRxIsr s SYNC_TOKEN) (L :: T :: (P ++ [SYNC_TOKEN]))).remoteTouchEvent).EventData.take
        P.length = P) := by
  have hstay : b ≠ SYNC_TOKEN → usartRxIsr s b = s := fun hb => by
    rw [usartRxIsr, if_pos hoos, if_neg hb]
  have hsyn : usartRxIsr s SYNC_TOKEN =
      { s with sReceiveBufferOutOfSync := false,
               sReceivedEventType := EVENT_TAG_NO_EVENT,
               sReceiveBufferIndex := 0 } := by
    rw [usartRxIsr, if_pos hoos, if_pos rfl]
  refine ⟨hstay, hsyn, ?_⟩
  rw [hsyn]
  rw [feed_frame ({ s with sReceiveBufferOutOfSync := false,
                           sReceivedEventType := EVENT_TAG_NO_EVENT,
                           sReceiveBufferIndex := 0 })
      L T P rfl rfl rfl (by simpa using hlen) hT hP]
  by_cases hd : T = EVENT_TAG_TOUCH_ACTION_DOWN
  · simp only [if_pos hd]
    exact ⟨trivial, List.take_left P _⟩
  · simp only [if_neg hd]
    exact ⟨trivial, List.take_left P _⟩

theorem resync_convergence_witness :
    ((0x30 : Nat) ≠ SYNC_TOKEN → usartRxIsr outOfSyncReceiver 0x30 = outOfSyncReceiver) ∧
    usartRxIsr outOfSyncReceiver SYNC_TOKEN =
      { outOfSyncReceiver with sReceiveBufferOutOfSync := false,
                                sReceivedEventType := EVENT_TAG_NO_EVENT,
                                sReceiveBufferIndex := 0 } ∧
    ((if (0x02 : Nat) = EVENT_TAG_TOUCH_ACTION_DOWN then
        (feedBytes (usartRxIsr outOfSyncReceiver SYNC_TOKEN)
          (6 :: 0x02 :: ([1, 2, 3, 4] ++ [SYNC_TOKEN]))).remoteTouchDownEvent
      else
        (feedBytes (usartRxIsr outOfSyncReceiver SYNC_TOKEN)
          (6 :: 0x02 :: ([1, 2, 3, 4] ++ [SYNC_TOKEN]))).remoteTouchEvent).EventType = 0x02 ∧
     (if (0x02 : Nat) = EVENT_TAG_TOUCH_ACTION_DOWN then
        (feedBytes (usartRxIsr outOfSyncReceiver SYNC_TOKEN)
          (6 :: 0x02 :: ([1, 2, 3, 4] ++ [SYNC_TOKEN]))).remoteTouchDownEvent
      else
        (feedBytes (usartRxIsr outOfSyncReceiver SYNC_TOKEN)
          (6 :: 0x02 :: ([1, 2, 3, 4] ++ [SYNC_TOKEN]))).remoteTouchEvent).EventData.take
        ([1, 2, 3, 4] : List Nat).length = [1, 2, 3, 4]) :=
  resync_convergence outOfSyncReceiver 0x30 6 0x02 [1, 2, 3, 4] (by decide) (by decide)
    (by decide) (by decide)

theorem dataSizeFor_pos (t : Nat) : 1 ≤ dataSizeFor t := by
  rw [dataSizeFor]; split <;> decide

/-- Inductive invariant of the receive path: the buffer index never
exceeds the expected data size of the stored event type, is at most 1
while no event type is known (only the length byte may be pending), and
the receive buffer keeps its 12-byte size. -/
def RxIndexInv (s : ReceiverState) : Prop :=
  s.sReceiveBufferIndex ≤ dataSizeFor s.sReceivedEventType ∧
  (s.sReceivedEventType = EVENT_TAG_NO_EVENT → s.sReceiveBufferIndex ≤ 1) ∧
  s.sReceiveBuffer.length = RECEIVE_CALLBACK_DATA_SIZE

theorem usartRxIsr_inv (s : ReceiverState) (b : Nat) (h : RxIndexInv s) :
    RxIndexInv (usartRxIsr s b) := by
  obtain ⟨h1, h2, h3⟩ := h
  obtain ⟨buf, idx, oos, ty, ev, dev⟩ := s
  simp only at h1 h2 h3
  rw [RxIndexInv, usartRxIsr]
  have hpos := dataSizeFor_pos ty
  have hposb := dataSizeFor_pos b
  split_ifs with hoos hsy hty hidx1 hidxsz hsy2 hdown <;>
    simp_all [List.length_set] <;> omega

theorem feedBytes_inv (bs : List Nat) : ∀ (s : ReceiverState),
    RxIndexInv s → RxIndexInv (feedBytes s bs) := by
  induction bs with
  | nil => intro s h; exact h
  | cons b rest ih =>
    intro s h
    rw [feedBytes_cons]
    exact ih (usartRxIsr s b) (usartRxIsr_inv s b h)

/-- From the invariant, one ISR step either leaves the receive buffer
untouched or stores the byte at the current index, which is strictly
below the expected data size. -/
theorem usartRxIsr_write (s : ReceiverState) (b : Nat) (h : RxIndexInv s) :
    (usartRxIsr s b).sReceiveBuffer = s.sReceiveBuffer ∨
    (s.sReceiveBufferIndex < dataSizeFor s.sReceivedEventType ∧
     (usartRxIsr s b).sReceiveBuffer = s.sReceiveBuffer.set s.sReceiveBufferIndex b) := by
  obtain ⟨h1, h2, h3⟩ := h
  obtain ⟨buf, idx, oos, ty, ev, dev⟩ := s
  simp only at h1 h2 h3 ⊢
  rw [usartRxIsr]
  have hpos := dataSizeFor_pos ty
  split_ifs with hoos hsy hty hidx1 hidxsz hsy2 hdown <;> simp_all <;> omega

/-- C9.  Receive-buffer index bound: from a reset receiver, after any
byte sequence the index stays at or below the expected data size of the
current event type, that size never exceeds the 12-byte buffer, the
buffer keeps its 12-byte length, and the next ISR step either leaves
the buffer untouched or stores at the index, strictly below the
expected size — so the ISR never writes the receive buffer out of
bounds. -/
theorem receive_buffer_index_bound (s0 : ReceiverState) (bs : List Nat) (b : Nat)
    (hreset : ReceiverReset s0) :
    (feedBytes s0 bs).sReceiveBufferIndex ≤ dataSizeFor (feedBytes s0 bs).sReceivedEventType ∧
    dataSizeFor (feedBytes s0 bs).sReceivedEventType ≤ RECEIVE_CALLBACK_DATA_SIZE ∧
    (feedBytes s0 bs).sReceiveBuffer.length = RECEIVE_CALLBACK_DATA_SIZE ∧
    ((usartRxIsr (feedBytes s0 bs) b).sReceiveBuffer = (feedBytes s0 bs).sReceiveBuffer ∨
     ((feedBytes s0 bs).sReceiveBufferIndex <
        dataSizeFor (feedBytes s0 bs).sReceivedEventType ∧
      (usartRxIsr (feedBytes s0 bs) b).sReceiveBuffer =
        (feedBytes s0 bs).sReceiveBuffer.set (feedBytes s0 bs).sReceiveBufferIndex b)) := by
  obtain ⟨hsync, htype, hidx, hlen⟩ := hreset
  have hinv0 : RxIndexInv s0 := by
    rw [RxIndexInv, hidx]
    exact ⟨Nat.zero_le _, fun _ => Nat.zero_le _, hlen⟩
  have hinv := feedBytes_inv bs s0 hinv0
  obtain ⟨h1, h2, h3⟩ := hinv
  exact ⟨h1, dataSizeFor_le _, h3,
    usartRxIsr_write (feedBytes s0 bs) b ⟨h1, h2, h3⟩⟩

theorem receive_buffer_index_bound_witness :
    (feedBytes initialReceiver [6, 0x02, 10]).sReceiveBufferIndex ≤
      dataSizeFor (feedBytes initialReceiver [6, 0x02, 10]).sReceivedEventType ∧
    dataSizeFor (feedBytes initialReceiver [6, 0x02, 10]).sReceivedEventType ≤
      RECEIVE_CALLBACK_DATA_SIZE ∧
    (feedBytes initialReceiver [6, 0x02, 10]).sReceiveBuffer.length =
      RECEIVE_CALLBACK_DATA_SIZE ∧
    ((usartRxIsr (feedBytes initialReceiver [6, 0x02, 10]) 20).sReceiveBuffer =
        (feedBytes initialReceiver [6, 0x02, 10]).sReceiveBuffer ∨
     ((feedBytes initialReceiver [6, 0x02, 10]).sReceiveBufferIndex <
        dataSizeFor (feedBytes initialReceiver [6, 0x02, 10]).sReceivedEventType ∧
      (usartRxIsr (feedBytes initialReceiver [6, 0x02, 10]) 20).sReceiveBuffer =
        (feedBytes initialReceiver [6, 0x02, 10]).sReceiveBuffer.set
          (feedBytes initialReceiver [6, 0x02, 10]).sReceiveBufferIndex 20)) :=
  receive_buffer_index_bound initialReceiver [6, 0x02, 10] 20 (by decide)
